import Mathlib

/-!
Verification of the mudpie HTTP server engine.

Byte strings are modelled as `List Nat` (one `Nat` per byte).  The Rust
sources operate on `&[u8]` / `Vec<u8>`; every definition below is a direct
transcription of the corresponding Rust function, with machine integers as
`Nat` and explicit `% 2 ^ 64` where u64 overflow matters.  `HashMap` values
are modelled as association lists observed only through `envGet`, and the
TCP stream is modelled as the list of chunks successive `read` calls
return, together with an explicit trace of read/write events.
-/

set_option maxRecDepth 10000

/-- Bytes of an ASCII string literal. -/
def asciiStr (s : String) : List Nat :=
  s.toList.map Char.toNat

def crlf : List Nat := [13, 10]

def crlfcrlf : List Nat := [13, 10, 13, 10]

/-- `byteutils::memmem`: position of needle in haystack (first match).
The Rust source panics on an empty needle; it is only ever called with
the nonempty needle `\r\n\r\n`, and the model returns `none` there. -/
def memmem (haystack needle : List Nat) : Option Nat :=
  if needle = [] then none
  else if needle.isPrefixOf haystack then some 0
  else
    match haystack with
    | [] => none
    | _ :: t => (memmem t needle).map (· + 1)

/-- First occurrence of byte `b` in `src`: the part before and after. -/
def splitFirst (src : List Nat) (b : Nat) : Option (List Nat × List Nat) :=
  match src with
  | [] => none
  | c :: rest =>
    if c = b then some ([], rest)
    else (splitFirst rest b).map (fun p => (c :: p.1, p.2))

/-- `byteutils::split_bytes_on`: split on a single byte with at most
`max_splits` splits (old-Rust `splitn(max_splits, ..)` semantics: at most
`max_splits` splits, hence at most `max_splits + 1` pieces). -/
def split_bytes_on (src : List Nat) (b : Nat) (max_splits : Nat) : List (List Nat) :=
  match max_splits with
  | 0 => [src]
  | m + 1 =>
    match splitFirst src b with
    | none => [src]
    | some (pre, post) => pre :: split_bytes_on post b m

/-- Worker for `split_bytes_on_crlf`: scan for the two-byte window
`\r\n`, emitting the accumulated segment at each match; any trailing
bytes not followed by `\r\n` are dropped (the source loop only pushes
on a window match). -/
def crlfGo : List Nat → List Nat → List (List Nat)
  | _, [] => []
  | _, [_] => []
  | cur, c :: d :: rest =>
    if c = 13 ∧ d = 10 then cur :: crlfGo [] rest
    else crlfGo (cur ++ [c]) (d :: rest)

/-- `byteutils::split_bytes_on_crlf`. -/
def split_bytes_on_crlf (src : List Nat) : List (List Nat) :=
  crlfGo [] src

/-- `byteutils::to_hexval`. -/
def to_hexval (byte : Nat) : Option Nat :=
  if 65 ≤ byte ∧ byte ≤ 70 then some (byte - 65 + 10)
  else if 97 ≤ byte ∧ byte ≤ 102 then some (byte - 97 + 10)
  else if 48 ≤ byte ∧ byte ≤ 57 then some (byte - 48)
  else none

/-- `byteutils::to_decval`. -/
def to_decval (byte : Nat) : Option Nat :=
  if 48 ≤ byte ∧ byte ≤ 57 then some (byte - 48)
  else none

/-- `byteutils::percent_decode`: decode `%XX` when both hex digits are
valid and present; otherwise the `%` passes through literally and
scanning resumes at the next byte. -/
def percent_decode : List Nat → List Nat
  | [] => []
  | 37 :: a :: b :: rest =>
    match to_hexval a, to_hexval b with
    | some l, some r => (l * 16 + r) :: percent_decode rest
    | _, _ => 37 :: percent_decode (a :: b :: rest)
  | c :: rest => c :: percent_decode rest

/-- `byteutils::lstrip`: drop leading space bytes. -/
def lstrip (input : List Nat) : List Nat :=
  input.dropWhile (· = 32)

/-- `byteutils::rstrip`: drop trailing space bytes. -/
def rstrip (input : List Nat) : List Nat :=
  (input.reverse.dropWhile (· = 32)).reverse

/-- `byteutils::strip`. -/
def strip (input : List Nat) : List Nat :=
  lstrip (rstrip input)

/-- Loop of `byteutils::parse_u64`; `ret` is a u64, so every step wraps
modulo `2 ^ 64` (the source does `ret * 10 + n` on a `u64` with no
overflow check, the old-Rust wrapping semantics). -/
def parse_u64_go (ret : Nat) : List Nat → Option Nat
  | [] => some ret
  | c :: rest =>
    match to_decval c with
    | some n => parse_u64_go ((ret * 10 + n) % 2 ^ 64) rest
    | none => none

/-- `byteutils::parse_u64`: ASCII digits only, empty input fails. -/
def parse_u64 (input : List Nat) : Option Nat :=
  if input = [] then none else parse_u64_go 0 input

example : split_bytes_on (asciiStr ("hello world dude")) 32 10 =
    [asciiStr ("hello"), asciiStr ("world"), asciiStr ("dude")] := by decide
example : split_bytes_on (asciiStr ("hello world dude")) 32 1 =
    [asciiStr ("hello"), asciiStr ("world dude")] := by decide
example : split_bytes_on (asciiStr ("    ")) 32 2 =
    [[], [], asciiStr ("  ")] := by decide
example : split_bytes_on_crlf (asciiStr ("hello world\r\ndude\r\n\r\nlast one\r\n")) =
    [asciiStr ("hello world"), asciiStr ("dude"), [], asciiStr ("last one")] := by decide
example : percent_decode (asciiStr ("/hi%20there")) = asciiStr ("/hi there") := by decide
example : percent_decode (asciiStr ("/%fg%zz")) = asciiStr ("/%fg%zz") := by decide
example : percent_decode (asciiStr ("%%%")) = asciiStr ("%%%") := by decide
example : parse_u64 (asciiStr ("12345")) = some 12345 := by decide
example : parse_u64 (asciiStr ("123a")) = none := by decide
example : parse_u64 [] = none := by decide
example : memmem (asciiStr ("hello world dude")) (asciiStr (" wor")) = some 5 := by decide

deriving instance DecidableEq for Except

/-! ## Environ: `HashMap<Vec<u8>, Vec<u8>>` observed through `get` -/

abbrev Environ := List (List Nat × List Nat)

/-- `HashMap::get`. -/
def envGet (env : Environ) (k : List Nat) : Option (List Nat) :=
  (env.find? (fun p => p.1 = k)).map (fun p => p.2)

/-- `HashMap::insert` (overwrite). -/
def envInsert (env : Environ) (k v : List Nat) : Environ :=
  match env with
  | [] => [(k, v)]
  | (k2, v2) :: rest =>
    if k2 = k then (k, v) :: rest else (k2, v2) :: envInsert rest k v

/-- The `entry` update of the header loop: vacant inserts the value,
occupied appends a comma and the new value. -/
def envAppendEntry (env : Environ) (k v : List Nat) : Environ :=
  match env with
  | [] => [(k, v)]
  | (k2, v2) :: rest =>
    if k2 = k then (k2, v2 ++ [44] ++ v) :: rest
    else (k2, v2) :: envAppendEntry rest k v

/-- `HashMap::contains_key`. -/
def envContains (env : Environ) (k : List Nat) : Bool :=
  (envGet env k).isSome

/-! ## `utils::http_request::parse` -/

inductive ParseError where
  | BadRequestLine
  | BadVersion
  | InvalidAbsolutePath
  | InvalidHeaderSeparator
  | InvalidHeaderWhitespace
deriving DecidableEq

/-- `utils::http_request::Request` (`path` is the percent-decoded path,
`method` the lowercased method; the lossy UTF-8 step keeps the bytes). -/
structure Request where
  environ : Environ
  path : List Nat
  method : List Nat
deriving DecidableEq

/-- `into_ascii_lowercase`: lowercase ASCII letters byte-wise. -/
def ascii_lower (l : List Nat) : List Nat :=
  l.map (fun c => if 65 ≤ c ∧ c ≤ 90 then c + 32 else c)

/-- The header loop of `parse` (lines after the request line): stops at
the first empty line, errors on a missing `:` separator or on padding
around the header name, and otherwise stores the stripped value under
`http_<lowercased name>`, comma-appending on repeats. -/
def process_headers (env : Environ) : List (List Nat) → Except ParseError Environ
  | [] => Except.ok env
  | line :: rest =>
    if line = [] then Except.ok env
    else
      match split_bytes_on line 58 1 with
      | [name, value] =>
        if strip name ≠ name then Except.error ParseError.InvalidHeaderWhitespace
        else
          process_headers
            (envAppendEntry env (ascii_lower (asciiStr ("http_") ++ name)) (strip value))
            rest
      | _ => Except.error ParseError.InvalidHeaderSeparator

/-- Tail of `parse` after the request line has been validated and the
path/query entries stored: percent-decode the stored raw path, then run
the header loop on the remaining lines. -/
def http_request_parse_rest (env : Environ) (lines : List (List Nat))
    (method : List Nat) : Except ParseError Request :=
  let path_decoded := percent_decode ((envGet env (asciiStr ("path"))).getD [])
  match process_headers env (lines.drop 1) with
  | Except.error e => Except.error e
  | Except.ok env2 => Except.ok ⟨env2, path_decoded, method⟩

/-- The body of `parse` once the request line has split into exactly
three tokens (method, request-target, protocol): emptiness check,
protocol check, path/query-string handling, then the header loop. -/
def http_request_parse_tokens (lines : List (List Nat)) (m0 p0 pr0 : List Nat) :
    Except ParseError Request :=
  let method := ascii_lower m0
  let protocol := ascii_lower pr0
  if method = [] ∨ p0 = [] ∨ protocol = [] then Except.error ParseError.BadRequestLine
  else if protocol ≠ asciiStr ("http/1.0") ∧ protocol ≠ asciiStr ("http/1.1") then
    Except.error ParseError.BadVersion
  else
    let env0 := envInsert (envInsert [] (asciiStr ("method")) method)
      (asciiStr ("protocol")) protocol
    if method = asciiStr ("options") ∧ p0 = [42] then
      http_request_parse_rest
        (envInsert (envInsert env0 (asciiStr ("path")) p0) (asciiStr ("query_string")) [])
        lines method
    else if p0.headD 0 ≠ 47 then Except.error ParseError.InvalidAbsolutePath
    else
      match split_bytes_on p0 63 1 with
      | [a, b] =>
        http_request_parse_rest
          (envInsert (envInsert env0 (asciiStr ("path")) a) (asciiStr ("query_string")) b)
          lines method
      | _ =>
        http_request_parse_rest
          (envInsert (envInsert env0 (asciiStr ("path")) p0) (asciiStr ("query_string")) [])
          lines method

/-- `utils::http_request::parse`.  The source asserts that the input
ends with `\r\n\r\n`; line 0 of the CRLF split is the request line,
split on the space byte with at most 2 splits. -/
def http_request_parse (request_bytes : List Nat) : Except ParseError Request :=
  let lines := split_bytes_on_crlf request_bytes
  let request_line := lines.headD []
  match split_bytes_on request_line 32 2 with
  | [m0, p0, pr0] => http_request_parse_tokens lines m0 p0 pr0
  | _ => Except.error ParseError.BadRequestLine

/-- Environ lookup on a successfully parsed request (test helper). -/
def parse_env_get (bs k : List Nat) : Option (List Nat) :=
  match http_request_parse bs with
  | Except.ok r => envGet r.environ k
  | Except.error _ => none

example : parse_env_get (asciiStr ("GET /foo%20bar HTTP/1.0\r\nFoo: Bar\r\nA B C:   D E F  \r\n\r\n"))
    (asciiStr ("method")) = some (asciiStr ("get")) := by decide
example : parse_env_get (asciiStr ("GET /foo%20bar HTTP/1.0\r\nFoo: Bar\r\nA B C:   D E F  \r\n\r\n"))
    (asciiStr ("path")) = some (asciiStr ("/foo%20bar")) := by decide
example : parse_env_get (asciiStr ("GET /foo%20bar HTTP/1.0\r\nFoo: Bar\r\nA B C:   D E F  \r\n\r\n"))
    (asciiStr ("http_a b c")) = some (asciiStr ("D E F")) := by decide
example : parse_env_get (asciiStr ("GET / HTTP/1.0\r\nH: foo\r\nH: bar\r\nZ: baz\r\nH:   hello again  \r\n\r\n"))
    (asciiStr ("http_h")) = some (asciiStr ("foo,bar,hello again")) := by decide
example : http_request_parse (asciiStr ("\r\n\r\n")) = Except.error ParseError.BadRequestLine := by decide
example : http_request_parse (asciiStr ("GET /\r\n\r\n")) = Except.error ParseError.BadRequestLine := by decide
example : http_request_parse (asciiStr ("GET  HTTP/1.0\r\n\r\n")) = Except.error ParseError.BadRequestLine := by decide
example : http_request_parse (asciiStr ("     \r\n\r\n")) = Except.error ParseError.BadRequestLine := by decide
example : http_request_parse (asciiStr ("GET / HTTP/3.0\r\n\r\n")) = Except.error ParseError.BadVersion := by decide
example : http_request_parse (asciiStr ("GET * HTTP/1.0\r\n\r\n")) = Except.error ParseError.InvalidAbsolutePath := by decide
example : http_request_parse (asciiStr ("GET / HTTP/1.0\r\nABC DEF\r\n\r\n")) = Except.error ParseError.InvalidHeaderSeparator := by decide
example : http_request_parse (asciiStr ("GET / HTTP/1.0\r\nABC : DEF\r\n\r\n")) = Except.error ParseError.InvalidHeaderWhitespace := by decide
example : http_request_parse (asciiStr ("GET / HTTP/1.0\r\n ABC: DEF\r\n\r\n")) = Except.error ParseError.InvalidHeaderWhitespace := by decide
example : (http_request_parse (asciiStr ("OPTIONS * HTTP/1.1\r\n\r\n"))).isOk := by decide
example : (http_request_parse (asciiStr ("GET /foo%20bar HTTP/1.0\r\n\r\n"))).toOption.map Request.path
    = some (asciiStr ("/foo bar")) := by decide

/-! ## `webserver::read_request`: stream model with an event trace

The socket is the list of chunks successive `read` calls return (an
empty chunk is a zero-length read, i.e. the peer closed; an exhausted
list likewise).  Every `read` and every `write_all` is recorded as an
event, in order. -/

inductive Event where
  | read : List Nat → Event
  | write : List Nat → Event
deriving DecidableEq

inductive RError where
  | ioError
  | invalidRequest
  | invalidVersion
  | lengthRequired
  | tooLarge
deriving DecidableEq

/-- `webserver::WebRequest`. -/
structure WebRequest where
  environ : Environ
  path : List Nat
  method : List Nat
  body : List Nat
deriving DecidableEq

/-- `read_request::read_until_headers_end`: read chunks into the buffer
until `\r\n\r\n` appears; returns the buffer, the position one past the
terminator, and the unconsumed chunks.  `none` models the I/O error on
a zero-length read or a closed stream. -/
def read_until_headers_end : List Nat → List (List Nat) →
    Option (List Nat × Nat × List (List Nat)) × List Event
  | _, [] => (none, [])
  | buffer, c :: rest =>
    if c = [] then (none, [Event.read c])
    else
      let buffer2 := buffer ++ c
      match memmem buffer2 crlfcrlf with
      | some p => (some (buffer2, p + 4, rest), [Event.read c])
      | none =>
        let r := read_until_headers_end buffer2 rest
        (r.1, Event.read c :: r.2)

/-- `read_request::read_until_size`: read chunks until the buffer holds
at least `size` bytes. -/
def read_until_size : List Nat → Nat → List (List Nat) →
    Option (List Nat × List (List Nat)) × List Event
  | buffer, size, [] =>
    if size ≤ buffer.length then (some (buffer, []), []) else (none, [])
  | buffer, size, c :: rest =>
    if size ≤ buffer.length then (some (buffer, c :: rest), [])
    else if c = [] then (none, [Event.read c])
    else
      let r := read_until_size (buffer ++ c) size rest
      (r.1, Event.read c :: r.2)

/-- The literal bytes `HTTP/1.1 100 Continue\r\n\r\n`. -/
def continue_bytes : List Nat := asciiStr ("HTTP/1.1 100 Continue\r\n\r\n")

/-- `read_request::needs_100_continue`: the `Expect` header compares
equal to `100-continue` after ASCII lowercasing. -/
def needs_100_continue (req : Request) : Bool :=
  match envGet req.environ (asciiStr ("http_expect")) with
  | none => false
  | some v => ascii_lower v = asciiStr ("100-continue")

/-- `read_request::read_request`: headers, parse, `Transfer-Encoding`
rejection, `Content-Length` bound check, optional 100-continue write,
body read, truncation to exactly `Content-Length` bytes. -/
def read_request (max_size : Nat) (input : List (List Nat)) :
    Except RError WebRequest × List Event :=
  match read_until_headers_end [] input with
  | (none, evs) => (Except.error RError.ioError, evs)
  | (some (buf, req_size, rest), evs) =>
    match http_request_parse (buf.take req_size) with
    | Except.error ParseError.BadVersion => (Except.error RError.invalidVersion, evs)
    | Except.error _ => (Except.error RError.invalidRequest, evs)
    | Except.ok req =>
      if envContains req.environ (asciiStr ("http_transfer-encoding")) then
        (Except.error RError.lengthRequired, evs)
      else
        match envGet req.environ (asciiStr ("http_content-length")) with
        | none => (Except.ok ⟨req.environ, req.path, req.method, []⟩, evs)
        | some clen_bytes =>
          match parse_u64 clen_bytes with
          | none => (Except.error RError.invalidRequest, evs)
          | some clen =>
            if max_size < clen then (Except.error RError.tooLarge, evs)
            else
              let cont_evs :=
                if needs_100_continue req then [Event.write continue_bytes] else []
              match read_until_size (buf.drop req_size) clen rest with
              | (none, evs2) => (Except.error RError.ioError, evs ++ cont_evs ++ evs2)
              | (some (bb, _), evs2) =>
                (Except.ok ⟨req.environ, req.path, req.method, bb.take clen⟩,
                  evs ++ cont_evs ++ evs2)

example : read_request 1000000 [asciiStr ("GET / HTTP/1.1\r\n\r\n")] =
    (Except.ok ⟨[(asciiStr ("method"), asciiStr ("get")),
                 (asciiStr ("protocol"), asciiStr ("http/1.1")),
                 (asciiStr ("path"), asciiStr ("/")),
                 (asciiStr ("query_string"), [])],
      asciiStr ("/"), asciiStr ("get"), []⟩,
     [Event.read (asciiStr ("GET / HTTP/1.1\r\n\r\n"))]) := by decide
example : (read_request 1000000
    [asciiStr ("GET / HTTP/1.1\r\nContent-Length: 1000000000\r\n\r\n")]).1 =
    Except.error RError.tooLarge := by decide
example : (read_request 1000000
    [asciiStr ("GET / HTTP/1.1\r\nTransfer-Encoding: chunked\r\n\r\n")]).1 =
    Except.error RError.lengthRequired := by decide
example : (read_request 1000000
    [asciiStr ("PUT /x HTTP/1.1\r\nContent-Length: 3\r\nExpect: 100-Continue\r\n\r\n"),
     asciiStr ("abcde")]).2 =
    [Event.read (asciiStr ("PUT /x HTTP/1.1\r\nContent-Length: 3\r\nExpect: 100-Continue\r\n\r\n")),
     Event.write continue_bytes,
     Event.read (asciiStr ("abcde"))] := by decide
example : ((read_request 1000000
    [asciiStr ("PUT /x HTTP/1.1\r\nContent-Length: 3\r\nExpect: 100-Continue\r\n\r\n"),
     asciiStr ("abcde")]).1.toOption.map WebRequest.body) =
    some (asciiStr ("abc")) := by decide

/-! ## `webserver::write_response` and `WebResponse` -/

/-- `webserver::WebResponse` (headers: last-write-wins map, modelled as
an association list iterated in insertion order). -/
structure WebResponse where
  code : Int
  status : List Nat
  body : List Nat
  headers : Environ
deriving DecidableEq

/-- `WebResponse::new`. -/
def WebResponse.new : WebResponse :=
  ⟨200, asciiStr ("OK"), [], []⟩

/-- `WebResponse::set_code`. -/
def set_code (r : WebResponse) (c : Int) (s : List Nat) : WebResponse :=
  { r with code := c, status := s }

/-- `WebResponse::set_body` / `set_body_str`. -/
def set_body (r : WebResponse) (b : List Nat) : WebResponse :=
  { r with body := b }

/-- `WebResponse::set_header` (overwrite). -/
def set_header (r : WebResponse) (k v : List Nat) : WebResponse :=
  { r with headers := envInsert r.headers k v }

def int_to_bytes (i : Int) : List Nat :=
  asciiStr (toString i)

def nat_to_bytes (n : Nat) : List Nat :=
  asciiStr (toString n)

/-- The protocol of the status line: echo the request's declared
protocol, defaulting to `HTTP/1.1` when no request is available. -/
def response_protocol (request : Option WebRequest) : List Nat :=
  match request with
  | some req =>
    if envGet req.environ (asciiStr ("protocol")) = some (asciiStr ("http/1.0")) then
      asciiStr ("HTTP/1.0")
    else asciiStr ("HTTP/1.1")
  | none => asciiStr ("HTTP/1.1")

/-- The status-line/header bytes built by `write_response`: status line
with the request's protocol (default `HTTP/1.1`), then `Connection:
close`, then `Content-Length` computed from the body, then the
response's own headers, then the blank line. -/
def response_head_bytes (request : Option WebRequest) (response : WebResponse) : List Nat :=
  response_protocol request
    ++ [32] ++ int_to_bytes response.code ++ [32] ++ response.status ++ crlf
    ++ asciiStr ("Connection: close") ++ crlf
    ++ (asciiStr ("Content-Length: ") ++ nat_to_bytes response.body.length ++ crlf)
    ++ response.headers.foldr (fun kv acc => kv.1 ++ asciiStr (": ") ++ kv.2 ++ crlf ++ acc) []
    ++ crlf

/-- `write_response::write_response`: the list of `write_all` payloads,
in order.  The body is suppressed exactly when a request is present and
its method is `head`. -/
def write_response (request : Option WebRequest) (response : WebResponse) : List (List Nat) :=
  let send_body : Bool :=
    match request with
    | some req => req.method != asciiStr ("head")
    | none => true
  [response_head_bytes request response] ++
    (if send_body then [response.body] else [])

/-! ## Routing (`webserver::do_routing`) -/

/-- `webserver::DispatchRule`; the handler is an opaque tag `α`. -/
structure Rule (α : Type) where
  path : List Nat
  isPrefix : Bool
  methods : List (List Nat)
  page_fn : α
deriving DecidableEq

inductive RoutingResult (α : Type) where
  | FoundRule : α → RoutingResult α
  | NoPathMatch : RoutingResult α
  | NoMethodMatch : List (List Nat) → RoutingResult α
deriving DecidableEq

/-- `HashSet::insert`, modelled as append-if-absent. -/
def hs_insert (s : List (List Nat)) (m : List Nat) : List (List Nat) :=
  if m ∈ s then s else s ++ [m]

/-- Path test of a rule: prefix rules by `starts_with`, exact rules by
equality. -/
def path_matches {α : Type} (r : Rule α) (req_path : List Nat) : Bool :=
  if r.isPrefix then r.path.isPrefixOf req_path else req_path = r.path

/-- Inner loop of `do_routing` over one rule's methods: insert each
method into the set, returning true on the first equal to the request
method. -/
def method_loop (found : List (List Nat)) (target : List Nat) :
    List (List Nat) → Bool × List (List Nat)
  | [] => (false, found)
  | m :: rest =>
    let found2 := hs_insert found m
    if m = target then (true, found2) else method_loop found2 target rest

/-- Outer loop of `do_routing` with its two accumulators. -/
def route_loop {α : Type} (req_path req_method : List Nat) (found_path : Bool)
    (found_methods : List (List Nat)) : List (Rule α) → RoutingResult α
  | [] =>
    if found_path then RoutingResult.NoMethodMatch found_methods
    else RoutingResult.NoPathMatch
  | r :: rest =>
    if path_matches r req_path then
      match method_loop found_methods req_method r.methods with
      | (true, _) => RoutingResult.FoundRule r.page_fn
      | (false, found2) => route_loop req_path req_method true found2 rest
    else route_loop req_path req_method found_path found_methods rest

/-- `webserver::do_routing` (observationally the same loop as
`router::Router::route`). -/
def do_routing {α : Type} (rules : List (Rule α)) (req : WebRequest) : RoutingResult α :=
  route_loop req.path req.method false [] rules

/-- `WebServer::parse_methods`: comma-split, trim, lowercase. -/
def split_all_on_go (b : Nat) : List Nat → List Nat → List (List Nat)
  | cur, [] => [cur]
  | cur, c :: rest =>
    if c = b then cur :: split_all_on_go b [] rest
    else split_all_on_go b (cur ++ [c]) rest

def split_all_on (src : List Nat) (b : Nat) : List (List Nat) :=
  split_all_on_go b [] src

/-- ASCII fragment of Rust `str::trim` (whitespace incl. tab/CR/LF). -/
def trim_ascii (l : List Nat) : List Nat :=
  let ws : Nat → Bool := fun c => c = 32 || c = 9 || c = 10 || c = 13
  ((l.dropWhile ws).reverse.dropWhile ws).reverse

def parse_methods (methods : List Nat) : List (List Nat) :=
  (split_all_on methods 44).map (fun p => ascii_lower (trim_ascii p))

example : parse_methods (asciiStr ("get,head")) = [asciiStr ("get"), asciiStr ("head")] := by decide
example : parse_methods (asciiStr ("GET, Head")) = [asciiStr ("get"), asciiStr ("head")] := by decide

/-! ## `webserver::process_http_connection` -/

/-- `Vec::connect` / join with a separator. -/
def join_sep (sep : List Nat) : List (List Nat) → List Nat
  | [] => []
  | [x] => x
  | x :: y :: rest => x ++ sep ++ join_sep sep (y :: rest)

def resp_400 : WebResponse :=
  set_body (set_code WebResponse.new 400 (asciiStr ("Bad Request")))
    (asciiStr ("Error 400: Bad Request"))

def resp_411 : WebResponse :=
  set_body (set_code WebResponse.new 411 (asciiStr ("Length Required")))
    (asciiStr ("Error 411: Length Required"))

def resp_505 : WebResponse :=
  set_body (set_code WebResponse.new 505 (asciiStr ("Version not Supported")))
    (asciiStr ("Error 505: Version not Supported"))

def resp_413 : WebResponse :=
  set_body (set_code WebResponse.new 413 (asciiStr ("Request Entity Too Large")))
    (asciiStr ("Error 413: Request Entity Too Large"))

def resp_404 : WebResponse :=
  set_body (set_code WebResponse.new 404 (asciiStr ("Not Found")))
    (asciiStr ("Error 404: Resource not found"))

def resp_405 (methods : List (List Nat)) : WebResponse :=
  set_header
    (set_body (set_code WebResponse.new 405 (asciiStr ("Method not allowed")))
      (asciiStr ("Error 405: Method not allowed")))
    (asciiStr ("Allow")) (join_sep (asciiStr (", ")) methods)

/-- The 500 response manufactured by the drop of
`HTTPConnectionSentinel` when still armed. -/
def resp_500 : WebResponse :=
  set_body (set_code WebResponse.new 500 (asciiStr ("Uh oh :-(")))
    (asciiStr ("Error 500: Internal error in handler function"))

/-- `webserver::add_socket_info`: store the peer and local addresses. -/
def add_socket_info (req : WebRequest) (remote locala : List Nat) : WebRequest :=
  { req with
    environ := envInsert (envInsert req.environ (asciiStr ("remote_address")) remote)
      (asciiStr ("local_address")) locala }

/-- `webserver::process_http_connection`: the full event trace of one
accepted connection.  A handler is `α → WebRequest → Option WebResponse`
applied to the routed tag; `none` models a handler panic, in which case
the armed sentinel writes the 500 response on drop; a normal return
disarms the sentinel and the handler's response is written. -/
def process_http_connection {α : Type} (rules : List (Rule α))
    (app : α → WebRequest → Option WebResponse) (max_size : Nat)
    (remote locala : List Nat) (input : List (List Nat)) : List Event :=
  match read_request max_size input with
  | (Except.error e, evs) =>
    match e with
    | RError.invalidRequest => evs ++ (write_response none resp_400).map Event.write
    | RError.lengthRequired => evs ++ (write_response none resp_411).map Event.write
    | RError.invalidVersion => evs ++ (write_response none resp_505).map Event.write
    | RError.tooLarge => evs ++ (write_response none resp_413).map Event.write
    | RError.ioError => evs
  | (Except.ok req, evs) =>
    let req2 := add_socket_info req remote locala
    match do_routing rules req2 with
    | RoutingResult.NoPathMatch =>
      evs ++ (write_response (some req2) resp_404).map Event.write
    | RoutingResult.NoMethodMatch methods =>
      evs ++ (write_response (some req2) (resp_405 methods)).map Event.write
    | RoutingResult.FoundRule pf =>
      match app pf req2 with
      | some response => evs ++ (write_response (some req2) response).map Event.write
      | none => evs ++ (write_response (some req2) resp_500).map Event.write

/-! ## A syntactic-validity checker for HTTP responses

Used to state that the engine's generated responses are complete and
well-formed: header block terminated by the first `\r\n\r\n`, a
three-token status line with an `HTTP/1.`-versioned protocol and a
numeric code, exactly one `Content-Length` header whose value equals
the length of the bytes after the header block (which must be empty for
a HEAD answer).  Returns the status code. -/

def content_length_of_line (l : List Nat) : Option Nat :=
  match split_bytes_on l 58 1 with
  | [n, v] =>
    if ascii_lower n = asciiStr ("content-length") then parse_u64 (strip v) else none
  | _ => none

def check_response (isHead : Bool) (bytes : List Nat) : Option Nat :=
  match memmem bytes crlfcrlf with
  | none => none
  | some p =>
    let head := bytes.take (p + 4)
    let body := bytes.drop (p + 4)
    match split_bytes_on_crlf head with
    | [] => none
    | status :: hdrs =>
      match split_bytes_on status 32 2 with
      | [proto, code, _] =>
        if (asciiStr ("HTTP/1.")).isPrefixOf proto then
          match parse_u64 code with
          | none => none
          | some c =>
            match hdrs.filterMap content_length_of_line with
            | [n] =>
              if (if isHead then body = [] else body.length = n) then some c else none
            | _ => none
        else none
      | _ => none

example : process_http_connection ([] : List (Rule Nat)) (fun _ _ => none) 1000000
    [] [] [asciiStr ("GET / HTTP/1.1\r\nContent-Length: 1000000000\r\n\r\n")] =
    [Event.read (asciiStr ("GET / HTTP/1.1\r\nContent-Length: 1000000000\r\n\r\n")),
     Event.write (response_head_bytes none resp_413),
     Event.write resp_413.body] := by decide
example : check_response false ((write_response none resp_413).foldr List.append []) =
    some 413 := by decide
example : check_response false ((write_response none resp_400).foldr List.append []) =
    some 400 := by decide

/-- Whether the byte string contains the two-byte sequence `\r\n`. -/
def has_crlf : List Nat → Bool
  | [] => false
  | [_] => false
  | c :: d :: rest => (decide (c = 13) && decide (d = 10)) || has_crlf (d :: rest)

/-- Whether the byte string contains a valid escape: a `%` followed by
two valid hex digits. -/
def has_valid_escape : List Nat → Bool
  | [] => false
  | [_] => false
  | [_, _] => false
  | c :: a :: b :: rest =>
    (decide (c = 37) && (to_hexval a).isSome && (to_hexval b).isSome)
      || has_valid_escape (a :: b :: rest)

/-- The oversize-`Content-Length` request of the wrap-around scenario. -/
def c10_chunk : List Nat :=
  asciiStr ("GET / HTTP/1.1\r\nContent-Length: 18446744073709551616\r\n\r\n")

/-- The request `read_request` produces for `c10_chunk`. -/
def c10_req : WebRequest :=
  match (read_request 1000000 [c10_chunk]).1 with
  | Except.ok r => r
  | Except.error _ => ⟨[], [], [], []⟩

/-- The natural number denoted by a decimal ASCII digit string (no
wrap-around). -/
def nat_of_digits (ds : List Nat) : Nat :=
  ds.foldl (fun a d => a * 10 + (d - 48)) 0

/-- The stripped values of the header lines (up to the first blank
line) whose environ key `http_<lowercased name>` equals `k`, in
arrival order. -/
def header_values_for (k : List Nat) : List (List Nat) → List (List Nat)
  | [] => []
  | line :: rest =>
    if line = [] then []
    else
      match split_bytes_on line 58 1 with
      | [name, value] =>
        (if ascii_lower (asciiStr ("http_") ++ name) = k then [strip value] else []) ++
          header_values_for k rest
      | _ => []

/-- Comma-joining of an optional pre-existing value with newly arrived
values, mirroring the vacant/occupied entry update. -/
def combine_header : Option (List Nat) → List (List Nat) → Option (List Nat)
  | none, [] => none
  | none, v :: vs => some (join_sep [44] (v :: vs))
  | some o, vs => some (join_sep [44] (o :: vs))

/-- A rule matches the request outright: path matches and the method
set contains the request method. -/
def rule_accepts {α : Type} (r : Rule α) (req_path req_method : List Nat) : Bool :=
  path_matches r req_path && decide (req_method ∈ r.methods)

/-- Insert all methods of a rule into the found set. -/
def insert_all (acc : List (List Nat)) (ms : List (List Nat)) : List (List Nat) :=
  ms.foldl (fun s x => hs_insert s x) acc

/-- The found-method set accumulated over the rules whose path
matches. -/
def collect_methods {α : Type} (acc : List (List Nat)) (req_path : List Nat) :
    List (Rule α) → List (List Nat)
  | [] => acc
  | r :: rest =>
    if path_matches r req_path then
      collect_methods (insert_all acc r.methods) req_path rest
    else collect_methods acc req_path rest

/-- The single registered rule of the router example:
`(methods = "get,head", path = "/hello", exact)` with handler tag 0. -/
def hello_rule : Rule Nat :=
  ⟨asciiStr ("/hello"), false, parse_methods (asciiStr ("get,head")), 0⟩

def req_get_hello : WebRequest := ⟨[], asciiStr ("/hello"), asciiStr ("get"), []⟩

def req_post_hello : WebRequest := ⟨[], asciiStr ("/hello"), asciiStr ("post"), []⟩

def req_get_other : WebRequest := ⟨[], asciiStr ("/other"), asciiStr ("get"), []⟩

/-- The parsed request of the C2 oversize scenario. -/
def c2_req : Request :=
  match http_request_parse (asciiStr ("GET / HTTP/1.1\r\nContent-Length: 1000000000\r\n\r\n")) with
  | Except.ok r => r
  | Except.error _ => ⟨[], [], []⟩

/-- Header block of the 100-continue scenario. -/
def c9_hdr : List Nat :=
  asciiStr ("PUT /x HTTP/1.1\r\nContent-Length: 3\r\nExpect: 100-Continue\r\n\r\n")

/-- Its parse result. -/
def c9_req : Request :=
  match http_request_parse c9_hdr with
  | Except.ok r => r
  | Except.error _ => ⟨[], [], []⟩

/-- Header block of the same request without the `Expect` header. -/
def c9b_hdr : List Nat :=
  asciiStr ("PUT /x HTTP/1.1\r\nContent-Length: 3\r\n\r\n")

/-- Its parse result. -/
def c9b_req : Request :=
  match http_request_parse c9b_hdr with
  | Except.ok r => r
  | Except.error _ => ⟨[], [], []⟩

/-- The `/panic` rule whose handler terminates abnormally. -/
def panic_rule : Rule Nat :=
  ⟨asciiStr ("/panic"), false, parse_methods (asciiStr ("get")), 0⟩

def c1_hdr : List Nat := asciiStr ("GET /panic HTTP/1.1\r\n\r\n")

/-- The request `read_request` produces for `c1_hdr`. -/
def c1_req : WebRequest :=
  match (read_request 1000000 [c1_hdr]).1 with
  | Except.ok r => r
  | Except.error _ => ⟨[], [], [], []⟩

/-! ## Theorems -/

theorem crlfGo_of_no_crlf (t : List Nat) (h : has_crlf t = false) :
    ∀ cur, crlfGo cur t = [] := by
  induction t with
  | nil => intro cur; rfl
  | cons c t ih =>
    cases t with
    | nil => intro cur; rfl
    | cons d t2 =>
      intro cur
      simp only [has_crlf, Bool.or_eq_false_iff, Bool.and_eq_false_iff] at h
      have hnd : ¬(c = 13 ∧ d = 10) := by
        rcases h.1 with h1 | h1 <;> simp at h1 <;> omega
      simp only [crlfGo, if_neg hnd]
      exact ih h.2 (cur ++ [c])

theorem crlfGo_append_crlf (s : List Nat) (h : has_crlf s = false) :
    ∀ cur rest, crlfGo cur (s ++ [13, 10] ++ rest) = (cur ++ s) :: crlfGo [] rest := by
  induction s with
  | nil => intro cur rest; simp [crlfGo]
  | cons c s2 ih =>
    intro cur rest
    cases s2 with
    | nil =>
      have hnd : ¬(c = 13 ∧ (13 : Nat) = 10) := by simp
      simp [crlfGo, if_neg hnd]
    | cons d s3 =>
      simp only [has_crlf, Bool.or_eq_false_iff, Bool.and_eq_false_iff] at h
      have hnd : ¬(c = 13 ∧ d = 10) := by
        rcases h.1 with h1 | h1 <;> simp at h1 <;> omega
      simp only [List.cons_append, crlfGo, if_neg hnd]
      have := ih h.2 (cur ++ [c]) rest
      rw [show (cur ++ [c]) ++ (d :: s3) = cur ++ (c :: d :: s3) by simp]  at this
      simpa using this

/-- C6: `split_bytes_on_crlf` splits on the literal `\r\n`, preserves
empty segments, and drops trailing content not followed by a final
`\r\n`: concretely on `a\r\nb\r\n\r\nc\r\n` it yields exactly
`["a", "b", "", "c"]`, without the final `\r\n` it yields
`["a", "b", ""]`; in general a CRLF-free string splits to no segments
at all, and a CRLF-free segment followed by `\r\n` is emitted before
the split of the remainder. -/
theorem C6_split_bytes_on_crlf :
    (split_bytes_on_crlf (asciiStr ("a\r\nb\r\n\r\nc\r\n")) =
      [asciiStr ("a"), asciiStr ("b"), [], asciiStr ("c")]) ∧
    (split_bytes_on_crlf (asciiStr ("a\r\nb\r\n\r\nc")) =
      [asciiStr ("a"), asciiStr ("b"), []]) ∧
    (∀ t, has_crlf t = false → split_bytes_on_crlf t = []) ∧
    (∀ s rest, has_crlf s = false →
      split_bytes_on_crlf (s ++ [13, 10] ++ rest) = s :: split_bytes_on_crlf rest) := by
  refine ⟨by decide, by decide, ?_, ?_⟩
  · intro t ht
    exact crlfGo_of_no_crlf t ht []
  · intro s rest hs
    have := crlfGo_append_crlf s hs [] rest
    simpa [split_bytes_on_crlf] using this

/-- C6 witness. -/
theorem C6_split_bytes_on_crlf_witness :
    split_bytes_on_crlf (asciiStr ("xy")) = [] ∧
    split_bytes_on_crlf (asciiStr ("xy") ++ [13, 10] ++ asciiStr ("z\r\n")) =
      asciiStr ("xy") :: split_bytes_on_crlf (asciiStr ("z\r\n")) :=
  ⟨C6_split_bytes_on_crlf.2.2.1 (asciiStr ("xy")) (by decide),
   C6_split_bytes_on_crlf.2.2.2 (asciiStr ("xy")) (asciiStr ("z\r\n")) (by decide)⟩

theorem percent_decode_cons_ne (c : Nat) (hc : c ≠ 37) (t : List Nat) :
    percent_decode (c :: t) = c :: percent_decode t :=
  percent_decode.eq_3 c t (fun _ _ _ h37 _ => hc h37)

theorem percent_decode_cons_short (c : Nat) (t : List Nat) (ht : t.length < 2) :
    percent_decode (c :: t) = c :: percent_decode t := by
  refine percent_decode.eq_3 c t (fun a b r _ hshape => ?_)
  rw [hshape] at ht
  simp only [List.length_cons] at ht
  omega

theorem percent_decode_cons_invalid (a b : Nat) (rest : List Nat)
    (h : (to_hexval a).isSome = false ∨ (to_hexval b).isSome = false) :
    percent_decode (37 :: a :: b :: rest) = 37 :: percent_decode (a :: b :: rest) := by
  rw [percent_decode.eq_2]
  rcases hA : to_hexval a with _ | vA
  · rfl
  · rcases hB : to_hexval b with _ | vB
    · rfl
    · exfalso
      rcases h with h | h <;> simp [hA, hB] at h

theorem percent_decode_of_no_escape (x : List Nat) (h : has_valid_escape x = false) :
    percent_decode x = x := by
  induction x with
  | nil => rfl
  | cons c t ih =>
    have step : percent_decode (c :: t) = c :: percent_decode t := by
      match t with
      | [] => exact percent_decode_cons_short c [] (by simp)
      | [d] => exact percent_decode_cons_short c [d] (by simp)
      | a :: b :: rest =>
        rcases Nat.decEq c 37 with hc | hc
        · exact percent_decode_cons_ne c hc (a :: b :: rest)
        · subst hc
          simp only [has_valid_escape, Bool.or_eq_false_iff, Bool.and_eq_false_iff] at h
          refine percent_decode_cons_invalid a b rest ?_
          rcases h.1 with (h1 | h1) | h1
          · simp at h1
          · exact Or.inl h1
          · exact Or.inr h1
    rw [step]
    congr 1
    apply ih
    match t with
    | [] => rfl
    | [d] => rfl
    | a :: b :: rest =>
      simp only [has_valid_escape, Bool.or_eq_false_iff] at h
      exact h.2

theorem no_pct_no_escape (x : List Nat) (h : 37 ∉ x) : has_valid_escape x = false := by
  induction x with
  | nil => rfl
  | cons c t ih =>
    have hct : c ≠ 37 ∧ 37 ∉ t := by
      constructor
      · intro hc; exact h (hc ▸ List.mem_cons_self c t)
      · intro hm; exact h (List.mem_cons_of_mem c hm)
    match t with
    | [] => rfl
    | [d] => rfl
    | a :: b :: rest =>
      simp only [has_valid_escape, Bool.or_eq_false_iff, Bool.and_eq_false_iff]
      refine ⟨Or.inl (Or.inl ?_), ?_⟩
      · simp [hct.1]
      · exact ih hct.2

/-- C7: percent-decoding is the identity on every byte string with no
valid `%XX` escape (a `%` followed by two valid hex digits): invalid or
truncated escapes pass through literally; consequently it is the
identity, hence idempotent, on every string containing no `%` byte. -/
theorem C7_percent_decode_identity :
    (∀ x, has_valid_escape x = false → percent_decode x = x) ∧
    (∀ x, 37 ∉ x →
      percent_decode x = x ∧ percent_decode (percent_decode x) = percent_decode x) := by
  refine ⟨percent_decode_of_no_escape, fun x hx => ?_⟩
  have hid := percent_decode_of_no_escape x (no_pct_no_escape x hx)
  exact ⟨hid, by rw [hid, hid]⟩

/-- C7 witness. -/
theorem C7_percent_decode_identity_witness :
    percent_decode (asciiStr ("/a%zq%4")) = asciiStr ("/a%zq%4") ∧
    (percent_decode (asciiStr ("/hello")) = asciiStr ("/hello") ∧
      percent_decode (percent_decode (asciiStr ("/hello"))) =
        percent_decode (asciiStr ("/hello"))) :=
  ⟨C7_percent_decode_identity.1 (asciiStr ("/a%zq%4")) (by decide),
   C7_percent_decode_identity.2 (asciiStr ("/hello")) (by decide)⟩

theorem digits_foldl_modeq (l : List Nat) :
    ∀ a b : Nat, a ≡ b [MOD 2 ^ 64] →
      l.foldl (fun x d => x * 10 + (d - 48)) a ≡
        l.foldl (fun x d => x * 10 + (d - 48)) b [MOD 2 ^ 64] := by
  induction l with
  | nil => intro a b h; exact h
  | cons c rest ih =>
    intro a b h
    exact ih _ _ ((h.mul_right 10).add_right (c - 48))

theorem parse_u64_go_digits (l : List Nat) :
    ∀ a : Nat, a < 2 ^ 64 → (∀ d ∈ l, 48 ≤ d ∧ d ≤ 57) →
      parse_u64_go a l = some ((l.foldl (fun x d => x * 10 + (d - 48)) a) % 2 ^ 64) := by
  induction l with
  | nil =>
    intro a ha _
    simp only [parse_u64_go, List.foldl_nil]
    rw [Nat.mod_eq_of_lt ha]
  | cons c rest ih =>
    intro a ha hd
    have hc : 48 ≤ c ∧ c ≤ 57 := hd c (List.mem_cons_self c rest)
    have hdec : to_decval c = some (c - 48) := by
      simp [to_decval, hc.1, hc.2]
    simp only [parse_u64_go, hdec]
    rw [ih _ (Nat.mod_lt _ (by positivity)) (fun d hdm => hd d (List.mem_cons_of_mem c hdm))]
    congr 1
    have := digits_foldl_modeq rest ((a * 10 + (c - 48)) % 2 ^ 64) (a * 10 + (c - 48))
      (Nat.mod_modEq _ _)
    exact this

/-- C10: `parse_u64` does no overflow detection: on an all-digit input
denoting `v` it returns `v` reduced modulo `2 ^ 64`, so values at or
above `2 ^ 64` silently wrap; consequently `read_request` compares the
wrapped value against the maximum, and a `Content-Length` denoting
`2 ^ 64` (which wraps to 0) is not rejected as too large. -/
theorem C10_parse_u64_wraps :
    (∀ ds, ds ≠ [] → (∀ d ∈ ds, 48 ≤ d ∧ d ≤ 57) →
      parse_u64 ds = some (nat_of_digits ds % 2 ^ 64)) ∧
    nat_of_digits (asciiStr ("18446744073709551616")) = 2 ^ 64 ∧
    parse_u64 (asciiStr ("18446744073709551616")) = some 0 ∧
    2 ^ 64 > 1000000 ∧
    (read_request 1000000 [c10_chunk]).1 ≠ Except.error RError.tooLarge ∧
    (∃ w, (read_request 1000000 [c10_chunk]).1 = Except.ok w ∧ w.body = []) := by
  refine ⟨fun ds hne hdig => ?_, by decide, by decide, by norm_num, by decide, ?_⟩
  · unfold parse_u64
    rw [if_neg hne]
    exact parse_u64_go_digits ds 0 (by positivity) hdig
  · exact ⟨c10_req, by decide, by decide⟩

/-- C10 witness. -/
theorem C10_parse_u64_wraps_witness :
    parse_u64 (asciiStr ("12345")) = some (nat_of_digits (asciiStr ("12345")) % 2 ^ 64) :=
  C10_parse_u64_wraps.1 (asciiStr ("12345")) (by decide) (by decide)

/-- C8: `write_response` always emits a `Connection: close` header and
a `Content-Length` header equal to the length of the response's body
field; when a request is present with method `head`, only the header
bytes are written (zero body bytes on the wire, with `Content-Length`
still reflecting the un-sent body); when no request is available, the
body write always happens. -/
theorem C8_write_response :
    ∀ (request : Option WebRequest) (response : WebResponse),
      (∃ s t, response_head_bytes request response =
        s ++ (asciiStr ("Connection: close") ++ crlf) ++ t) ∧
      (∃ s t, response_head_bytes request response =
        s ++ (asciiStr ("Content-Length: ") ++ nat_to_bytes response.body.length ++ crlf) ++ t) ∧
      (∀ r, request = some r → r.method = asciiStr ("head") →
        write_response request response = [response_head_bytes request response]) ∧
      (request = none →
        write_response request response =
          [response_head_bytes request response, response.body]) := by
  intro request response
  refine ⟨?_, ?_, ?_, ?_⟩
  · refine ⟨response_protocol request ++ [32] ++ int_to_bytes response.code ++ [32]
      ++ response.status ++ crlf, ?_, ?_⟩
    · exact (asciiStr ("Content-Length: ") ++ nat_to_bytes response.body.length ++ crlf)
        ++ response.headers.foldr (fun kv acc => kv.1 ++ asciiStr (": ") ++ kv.2 ++ crlf ++ acc) []
        ++ crlf
    · simp [response_head_bytes, List.append_assoc]
  · refine ⟨response_protocol request ++ [32] ++ int_to_bytes response.code ++ [32]
      ++ response.status ++ crlf ++ (asciiStr ("Connection: close") ++ crlf), ?_, ?_⟩
    · exact response.headers.foldr
        (fun kv acc => kv.1 ++ asciiStr (": ") ++ kv.2 ++ crlf ++ acc) [] ++ crlf
    · simp [response_head_bytes, List.append_assoc]
  · intro r hr hm
    subst hr
    simp [write_response, hm]
  · intro hr
    subst hr
    simp [write_response]

/-- C8 witness. -/
theorem C8_write_response_witness :
    (∃ s t, response_head_bytes none resp_404 =
      s ++ (asciiStr ("Connection: close") ++ crlf) ++ t) ∧
    write_response (some ⟨[], asciiStr ("/hello"), asciiStr ("head"), []⟩) resp_404 =
      [response_head_bytes (some ⟨[], asciiStr ("/hello"), asciiStr ("head"), []⟩) resp_404] ∧
    write_response none resp_404 = [response_head_bytes none resp_404, resp_404.body] :=
  ⟨(C8_write_response none resp_404).1,
   (C8_write_response (some ⟨[], asciiStr ("/hello"), asciiStr ("head"), []⟩) resp_404).2.2.1
     ⟨[], asciiStr ("/hello"), asciiStr ("head"), []⟩ rfl rfl,
   (C8_write_response none resp_404).2.2.2 rfl⟩

theorem process_headers_no_bad_request_line (ls : List (List Nat)) :
    ∀ env, process_headers env ls ≠ Except.error ParseError.BadRequestLine := by
  induction ls with
  | nil => intro env h; simp [process_headers] at h
  | cons l rest ih =>
    intro env
    by_cases hl : l = []
    · simp [process_headers, hl]
    · simp only [process_headers, if_neg hl]
      rcases hsp : split_bytes_on l 58 1 with _ | ⟨n, _ | ⟨v, r2⟩⟩
      · simp
      · simp
      · rcases r2 with _ | ⟨x, xs⟩
        · by_cases hws : strip n ≠ n
          · simp [if_pos hws]
          · simp only [if_neg hws]
            exact ih _
        · simp

theorem http_request_parse_rest_no_bad_request_line (env : Environ)
    (lines : List (List Nat)) (method : List Nat) :
    http_request_parse_rest env lines method ≠ Except.error ParseError.BadRequestLine := by
  unfold http_request_parse_rest
  rcases hph : process_headers env (lines.drop 1) with e | env2
  · intro h
    simp only [Except.error.injEq] at h
    exact process_headers_no_bad_request_line (lines.drop 1) env (by rw [hph, h])
  · simp

/-- C3: the parser splits the request line on the space byte with at
most 2 splits and requires exactly 3 non-empty tokens; whenever the
split yields fewer or more than 3 tokens, or any empty token, `parse`
returns `BadRequestLine`, and with 3 non-empty tokens it never does. -/
theorem http_request_parse_tokens_empty_token (lines : List (List Nat))
    (m0 p0 pr0 : List Nat) (h : m0 = [] ∨ p0 = [] ∨ pr0 = []) :
    http_request_parse_tokens lines m0 p0 pr0 = Except.error ParseError.BadRequestLine := by
  have hor : ascii_lower m0 = [] ∨ p0 = [] ∨ ascii_lower pr0 = [] := by
    rcases h with h | h | h
    · exact Or.inl (by simp [ascii_lower, h])
    · exact Or.inr (Or.inl h)
    · exact Or.inr (Or.inr (by simp [ascii_lower, h]))
  simp only [http_request_parse_tokens, if_pos hor]

theorem http_request_parse_tokens_ne_brl (lines : List (List Nat))
    (m0 p0 pr0 : List Nat) (hm : m0 ≠ []) (hp0 : p0 ≠ []) (hpr : pr0 ≠ []) :
    http_request_parse_tokens lines m0 p0 pr0 ≠ Except.error ParseError.BadRequestLine := by
  have hor : ¬(ascii_lower m0 = [] ∨ p0 = [] ∨ ascii_lower pr0 = []) := by
    simp [ascii_lower, hm, hp0, hpr]
  simp only [http_request_parse_tokens, if_neg hor]
  by_cases hver : ¬ascii_lower pr0 = asciiStr ("http/1.0") ∧
      ¬ascii_lower pr0 = asciiStr ("http/1.1")
  · simp [if_pos hver]
  · simp only [if_neg hver]
    by_cases hopt : ascii_lower m0 = asciiStr ("options") ∧ p0 = [42]
    · simp only [if_pos hopt]
      exact http_request_parse_rest_no_bad_request_line _ _ _
    · simp only [if_neg hopt]
      by_cases habs : ¬p0.headD 0 = 47
      · simp only [if_pos habs]
        simp
      · simp only [if_neg habs]
        rcases hq : split_bytes_on p0 63 1 with _ | ⟨a, _ | ⟨b, r2⟩⟩
        · exact http_request_parse_rest_no_bad_request_line _ _ _
        · exact http_request_parse_rest_no_bad_request_line _ _ _
        · rcases r2 with _ | ⟨y, ys⟩
          · exact http_request_parse_rest_no_bad_request_line _ _ _
          · exact http_request_parse_rest_no_bad_request_line _ _ _

/-- C3: the parser splits the request line on the space byte with at
most 2 splits and requires exactly 3 non-empty tokens; whenever the
split yields fewer or more than 3 tokens, or any empty token, `parse`
returns `BadRequestLine`, and with 3 non-empty tokens it never does. -/
theorem C3_request_line_tokens (request_bytes : List Nat)
    (_hend : ∃ s, request_bytes = s ++ crlfcrlf) :
    ((split_bytes_on ((split_bytes_on_crlf request_bytes).headD []) 32 2).length ≠ 3 ∨
        [] ∈ split_bytes_on ((split_bytes_on_crlf request_bytes).headD []) 32 2 →
      http_request_parse request_bytes = Except.error ParseError.BadRequestLine) ∧
    ((split_bytes_on ((split_bytes_on_crlf request_bytes).headD []) 32 2).length = 3 ∧
        [] ∉ split_bytes_on ((split_bytes_on_crlf request_bytes).headD []) 32 2 →
      http_request_parse request_bytes ≠ Except.error ParseError.BadRequestLine) := by
  clear _hend
  constructor <;>
    rcases hp : split_bytes_on ((split_bytes_on_crlf request_bytes).headD []) 32 2
      with _ | ⟨m, _ | ⟨p, _ | ⟨pr, _ | ⟨x, xs⟩⟩⟩⟩ <;>
    intro hcond <;>
    simp only [http_request_parse] <;>
    rw [hp]
  · rcases hcond with hlen | hmem
    · simp at hlen
    · show http_request_parse_tokens (split_bytes_on_crlf request_bytes) m p pr =
        Except.error ParseError.BadRequestLine
      refine http_request_parse_tokens_empty_token _ _ _ _ ?_
      simp only [List.mem_cons, List.not_mem_nil, or_false] at hmem
      rcases hmem with h | h | h
      · exact Or.inl h.symm
      · exact Or.inr (Or.inl h.symm)
      · exact Or.inr (Or.inr h.symm)
  · simp at hcond
  · simp at hcond
  · simp at hcond
  · show http_request_parse_tokens (split_bytes_on_crlf request_bytes) m p pr ≠
      Except.error ParseError.BadRequestLine
    have hm : m ≠ [] := fun h => hcond.2 (by simp [h])
    have hp0 : p ≠ [] := fun h => hcond.2 (by simp [h])
    have hpr : pr ≠ [] := fun h => hcond.2 (by simp [h])
    exact http_request_parse_tokens_ne_brl _ _ _ _ hm hp0 hpr
  · simp at hcond

/-- C3 witness. -/
theorem C3_request_line_tokens_witness :
    http_request_parse (asciiStr ("GET /\r\n\r\n")) =
      Except.error ParseError.BadRequestLine ∧
    http_request_parse (asciiStr ("GET / HTTP/3.0\r\n\r\n")) ≠
      Except.error ParseError.BadRequestLine :=
  ⟨(C3_request_line_tokens (asciiStr ("GET /\r\n\r\n"))
      ⟨asciiStr ("GET /"), by decide⟩).1 (by decide),
   (C3_request_line_tokens (asciiStr ("GET / HTTP/3.0\r\n\r\n"))
      ⟨asciiStr ("GET / HTTP/3.0"), by decide⟩).2 (by decide)⟩

theorem envGet_envAppendEntry (env : Environ) (k v k2 : List Nat) :
    envGet (envAppendEntry env k v) k2 =
      if k2 = k then
        match envGet env k with
        | none => some v
        | some o => some (o ++ [44] ++ v)
      else envGet env k2 := by
  induction env with
  | nil =>
    by_cases h : k2 = k
    · simp [envGet, envAppendEntry, h]
    · simp [envGet, envAppendEntry, h, Ne.symm h]
  | cons kv rest ih =>
    rcases kv with ⟨k3, v3⟩
    by_cases h3 : k3 = k
    · subst h3
      by_cases h : k2 = k3
      · subst h
        simp [envGet, envAppendEntry, List.find?]
      · simp [envGet, envAppendEntry, List.find?, h, Ne.symm h]
    · by_cases h : k2 = k3
      · subst h
        simp only [envAppendEntry, if_neg h3]
        have hne : ¬k2 = k := fun hh => h3 (by rw [← hh])
        simp [envGet, List.find?, if_neg hne]
      · simp only [envAppendEntry, if_neg h3]
        have lhs : envGet ((k3, v3) :: envAppendEntry rest k v) k2 =
            envGet (envAppendEntry rest k v) k2 := by
          simp [envGet, List.find?, Ne.symm h, h]
        have hskip : envGet ((k3, v3) :: rest) k2 = envGet rest k2 := by
          simp [envGet, List.find?, Ne.symm h, h]
        rw [lhs, ih]
        by_cases hk : k2 = k
        · subst hk
          rw [if_pos rfl, if_pos rfl, hskip]
        · rw [if_neg hk, if_neg hk, hskip]

theorem join_sep_cons_cons (o w : List Nat) (vs : List (List Nat)) :
    join_sep [44] (o :: w :: vs) = o ++ [44] ++ join_sep [44] (w :: vs) := rfl

theorem join_sep_glue (o sv : List Nat) (vs : List (List Nat)) :
    join_sep [44] ((o ++ [44] ++ sv) :: vs) = o ++ [44] ++ join_sep [44] (sv :: vs) := by
  cases vs with
  | nil => rfl
  | cons w ws => simp [join_sep_cons_cons, List.append_assoc]

theorem process_headers_get (lines : List (List Nat)) :
    ∀ env env2 k, process_headers env lines = Except.ok env2 →
      envGet env2 k = combine_header (envGet env k) (header_values_for k lines) := by
  induction lines with
  | nil =>
    intro env env2 k h
    simp only [process_headers, Except.ok.injEq] at h
    subst h
    rcases hg : envGet env k with _ | o <;> simp [header_values_for, combine_header, hg, join_sep]
  | cons line rest ih =>
    intro env env2 k h
    by_cases hl : line = []
    · simp only [process_headers, if_pos hl, Except.ok.injEq] at h
      subst h
      rcases hg : envGet env k with _ | o <;>
        simp [header_values_for, hl, combine_header, hg, join_sep]
    · simp only [process_headers, if_neg hl] at h
      rcases hsp : split_bytes_on line 58 1 with _ | ⟨name, _ | ⟨value, r2⟩⟩
      · rw [hsp] at h; simp at h
      · rw [hsp] at h; simp at h
      · rcases r2 with _ | ⟨y, ys⟩
        · rw [hsp] at h
          replace h : (if strip name ≠ name
              then Except.error ParseError.InvalidHeaderWhitespace
              else process_headers (envAppendEntry env
                (ascii_lower (asciiStr ("http_") ++ name)) (strip value)) rest) =
              Except.ok env2 := h
          by_cases hws : strip name ≠ name
          · rw [if_pos hws] at h; simp at h
          · rw [if_neg hws] at h
            have := ih _ _ k h
            rw [this]
            simp only [header_values_for, if_neg hl, hsp]
            by_cases hk : ascii_lower (asciiStr ("http_") ++ name) = k
            · rw [envGet_envAppendEntry, if_pos hk.symm, if_pos hk, hk]
              rcases hg : envGet env k with _ | o
              · simp only [hg]
                rcases hvs : header_values_for k rest with _ | ⟨w, ws⟩ <;>
                  simp [combine_header]
              · simp only [hg, combine_header, List.singleton_append, Option.some.injEq]
                rw [join_sep_glue, join_sep_cons_cons]
            · rw [envGet_envAppendEntry]
              rw [if_neg (fun hh => hk hh.symm), if_neg hk]
              simp
        · rw [hsp] at h; simp at h

/-- C5: for every header block, the parsed environ maps
`http_<lowercased name>` to the stripped values of that header's
occurrences concatenated in arrival order separated by a comma (on top
of any pre-existing entry); in particular headers `H: a` then `H: b`
yield `environ["http_h"] = "a,b"`. -/
theorem C5_repeated_headers :
    (∀ lines env env2 k, process_headers env lines = Except.ok env2 →
      envGet env2 k = combine_header (envGet env k) (header_values_for k lines)) ∧
    parse_env_get (asciiStr ("GET / HTTP/1.0\r\nH: a\r\nH: b\r\n\r\n")) (asciiStr ("http_h")) =
      some (asciiStr ("a,b")) :=
  ⟨fun lines env env2 k h => process_headers_get lines env env2 k h, by decide⟩

/-- C5 witness. -/
theorem C5_repeated_headers_witness :
    envGet [(asciiStr ("http_h"), asciiStr ("a,b"))] (asciiStr ("http_h")) =
      combine_header (envGet [] (asciiStr ("http_h")))
        (header_values_for (asciiStr ("http_h")) [asciiStr ("H: a"), asciiStr ("H: b"), []]) :=
  C5_repeated_headers.1 [asciiStr ("H: a"), asciiStr ("H: b"), []] [] _ (asciiStr ("http_h"))
    (by decide)

theorem method_loop_fst (target : List Nat) (ms : List (List Nat)) :
    ∀ found, (method_loop found target ms).1 = decide (target ∈ ms) := by
  induction ms with
  | nil => intro found; simp [method_loop]
  | cons m rest ih =>
    intro found
    by_cases hm : m = target
    · simp [method_loop, hm]
    · simp only [method_loop, if_neg hm]
      rw [ih]
      simp [List.mem_cons, Ne.symm hm]

theorem method_loop_not_mem (target : List Nat) (ms : List (List Nat)) :
    ∀ found, target ∉ ms →
      method_loop found target ms = (false, insert_all found ms) := by
  induction ms with
  | nil => intro found _; rfl
  | cons m rest ih =>
    intro found hni
    have hm : m ≠ target := fun h => hni (h ▸ List.mem_cons_self m rest)
    simp only [method_loop, if_neg hm]
    rw [ih _ (fun h => hni (List.mem_cons_of_mem m h))]
    rfl

theorem route_loop_eq {α : Type} (req_path req_method : List Nat) (rules : List (Rule α)) :
    ∀ (fp : Bool) (fm : List (List Nat)),
      route_loop req_path req_method fp fm rules =
        match rules.find? (fun r => rule_accepts r req_path req_method) with
        | some r => RoutingResult.FoundRule r.page_fn
        | none =>
          if fp || rules.any (fun r => path_matches r req_path) then
            RoutingResult.NoMethodMatch (collect_methods fm req_path rules)
          else RoutingResult.NoPathMatch := by
  induction rules with
  | nil =>
    intro fp fm
    cases fp <;> simp [route_loop, collect_methods]
  | cons r rest ih =>
    intro fp fm
    by_cases hp : path_matches r req_path
    · by_cases hm : req_method ∈ r.methods
      · have hfst : (method_loop fm req_method r.methods).1 = true := by
          rw [method_loop_fst]; simp [hm]
        have hacc : rule_accepts r req_path req_method = true := by
          simp [rule_accepts, hp, hm]
        simp only [route_loop, if_pos hp]
        rw [show method_loop fm req_method r.methods =
            ((method_loop fm req_method r.methods).1,
             (method_loop fm req_method r.methods).2) from rfl, hfst]
        simp [List.find?, hacc]
      · have hml : method_loop fm req_method r.methods =
            (false, insert_all fm r.methods) :=
          method_loop_not_mem req_method r.methods fm hm
        have hacc : rule_accepts r req_path req_method = false := by
          simp [rule_accepts, hm]
        simp only [route_loop, if_pos hp, hml]
        rw [ih]
        simp only [List.find?, hacc]
        simp only [List.any_cons, hp, Bool.true_or, Bool.or_true]
        simp [collect_methods, hp]
    · have hacc : rule_accepts r req_path req_method = false := by
        simp [rule_accepts, hp]
      simp only [route_loop, if_neg hp]
      rw [ih]
      simp only [List.find?, hacc]
      simp only [List.any_cons]
      have hpf : path_matches r req_path = false := by simpa using hp
      simp only [hpf, Bool.false_or, collect_methods, if_neg hp]
      simp

theorem mem_hs_insert (x m : List Nat) (s : List (List Nat)) :
    x ∈ hs_insert s m ↔ x ∈ s ∨ x = m := by
  unfold hs_insert
  by_cases hm : m ∈ s
  · simp only [if_pos hm]
    constructor
    · exact fun h => Or.inl h
    · rintro (h | h)
      · exact h
      · exact h ▸ hm
  · simp [if_neg hm]

theorem hs_insert_nodup (s : List (List Nat)) (m : List Nat) (h : s.Nodup) :
    (hs_insert s m).Nodup := by
  unfold hs_insert
  by_cases hm : m ∈ s
  · simpa [if_pos hm]
  · simp [if_neg hm, List.nodup_append, h, hm]

theorem mem_insert_all (x : List Nat) (ms : List (List Nat)) :
    ∀ acc, x ∈ insert_all acc ms ↔ x ∈ acc ∨ x ∈ ms := by
  induction ms with
  | nil => intro acc; simp [insert_all]
  | cons m rest ih =>
    intro acc
    simp only [insert_all, List.foldl_cons]
    rw [show List.foldl (fun s x => hs_insert s x) (hs_insert acc m) rest =
        insert_all (hs_insert acc m) rest from rfl, ih]
    rw [mem_hs_insert]
    simp [List.mem_cons]
    tauto

theorem insert_all_nodup (ms : List (List Nat)) :
    ∀ acc, acc.Nodup → (insert_all acc ms).Nodup := by
  induction ms with
  | nil => intro acc h; exact h
  | cons m rest ih =>
    intro acc h
    exact ih (hs_insert acc m) (hs_insert_nodup acc m h)

theorem mem_collect_methods {α : Type} (x req_path : List Nat) (rules : List (Rule α)) :
    ∀ acc, x ∈ collect_methods acc req_path rules ↔
      x ∈ acc ∨ ∃ r ∈ rules, path_matches r req_path = true ∧ x ∈ r.methods := by
  induction rules with
  | nil => intro acc; simp [collect_methods]
  | cons r rest ih =>
    intro acc
    by_cases hp : path_matches r req_path
    · simp only [collect_methods, if_pos hp]
      rw [ih, mem_insert_all]
      simp only [List.mem_cons, hp]
      constructor
      · rintro ((h | h) | ⟨r2, hr2, hpm, hx⟩)
        · exact Or.inl h
        · exact Or.inr ⟨r, Or.inl rfl, hp, h⟩
        · exact Or.inr ⟨r2, Or.inr hr2, hpm, hx⟩
      · rintro (h | ⟨r2, hr2, hpm, hx⟩)
        · exact Or.inl (Or.inl h)
        · rcases hr2 with h2 | h2
          · exact Or.inl (Or.inr (h2 ▸ hx))
          · exact Or.inr ⟨r2, h2, hpm, hx⟩
    · simp only [collect_methods, if_neg hp]
      rw [ih]
      simp only [List.mem_cons]
      constructor
      · rintro (h | ⟨r2, hr2, hpm, hx⟩)
        · exact Or.inl h
        · exact Or.inr ⟨r2, Or.inr hr2, hpm, hx⟩
      · rintro (h | ⟨r2, hr2, hpm, hx⟩)
        · exact Or.inl h
        · rcases hr2 with h2 | h2
          · exact absurd (h2 ▸ hpm) (by simpa using hp)
          · exact Or.inr ⟨r2, h2, hpm, hx⟩

theorem collect_methods_nodup {α : Type} (req_path : List Nat) (rules : List (Rule α)) :
    ∀ acc, acc.Nodup → (collect_methods acc req_path rules).Nodup := by
  induction rules with
  | nil => intro acc h; exact h
  | cons r rest ih =>
    intro acc h
    by_cases hp : path_matches r req_path
    · simp only [collect_methods, if_pos hp]
      exact ih _ (insert_all_nodup r.methods acc h)
    · simp only [collect_methods, if_neg hp]
      exact ih _ h

/-- C4: `do_routing` iterates rules in registration order and returns
`FoundRule` with the handler of the first rule accepting the request
(path match and method in the rule's method set); if no rule accepts
but some rule's path matches, it returns `NoMethodMatch` with the
deduplicated union of the methods of all path-matching rules; if no
path matches, `NoPathMatch`.  For the single exact rule
`(get,head, /hello)`: `GET /hello` finds the rule, `POST /hello` yields
`NoMethodMatch` of exactly the set containing get and head, and
`/other` yields `NoPathMatch`. -/
theorem C4_do_routing :
    (∀ (α : Type) (rules : List (Rule α)) (req : WebRequest) (r : Rule α),
      rules.find? (fun r2 => rule_accepts r2 req.path req.method) = some r →
      do_routing rules req = RoutingResult.FoundRule r.page_fn) ∧
    (∀ (α : Type) (rules : List (Rule α)) (req : WebRequest),
      rules.find? (fun r2 => rule_accepts r2 req.path req.method) = none →
      (∃ r ∈ rules, path_matches r req.path = true) →
      ∃ ms, do_routing rules req = RoutingResult.NoMethodMatch ms ∧ ms.Nodup ∧
        ∀ m, m ∈ ms ↔ ∃ r ∈ rules, path_matches r req.path = true ∧ m ∈ r.methods) ∧
    (∀ (α : Type) (rules : List (Rule α)) (req : WebRequest),
      (∀ r ∈ rules, path_matches r req.path = false) →
      do_routing rules req = RoutingResult.NoPathMatch) ∧
    do_routing [hello_rule] req_get_hello = RoutingResult.FoundRule 0 ∧
    (∃ ms, do_routing [hello_rule] req_post_hello = RoutingResult.NoMethodMatch ms ∧
      ms.Nodup ∧ ∀ m, m ∈ ms ↔ m = asciiStr ("get") ∨ m = asciiStr ("head")) ∧
    do_routing [hello_rule] req_get_other = RoutingResult.NoPathMatch := by
  refine ⟨?_, ?_, ?_, by decide, ?_, by decide⟩
  · intro α rules req r hfind
    unfold do_routing
    rw [route_loop_eq, hfind]
  · intro α rules req hfind hpath
    unfold do_routing
    rw [route_loop_eq, hfind]
    have hany : rules.any (fun r => path_matches r req.path) = true := by
      rcases hpath with ⟨r, hr, hpm⟩
      exact List.any_eq_true.mpr ⟨r, hr, hpm⟩
    rw [hany]
    refine ⟨collect_methods [] req.path rules, by simp, ?_, ?_⟩
    · exact collect_methods_nodup req.path rules [] List.nodup_nil
    · intro m
      rw [mem_collect_methods]
      simp
  · intro α rules req hpath
    unfold do_routing
    rw [route_loop_eq]
    have hfind : rules.find? (fun r2 => rule_accepts r2 req.path req.method) = none := by
      rw [List.find?_eq_none]
      intro r hr
      simp [rule_accepts, hpath r hr]
    rw [hfind]
    have hany : rules.any (fun r => path_matches r req.path) = false := by
      rw [List.any_eq_false]
      intro r hr
      simp [hpath r hr]
    rw [hany]
    simp
  · refine ⟨[asciiStr ("get"), asciiStr ("head")], by decide, by decide, ?_⟩
    intro m
    simp

/-- C4 witness. -/
theorem C4_do_routing_witness :
    do_routing [hello_rule] req_get_hello = RoutingResult.FoundRule hello_rule.page_fn ∧
    do_routing [hello_rule] ⟨[], asciiStr ("/nope"), asciiStr ("get"), []⟩ =
      RoutingResult.NoPathMatch ∧
    (∃ ms, do_routing [hello_rule] req_post_hello = RoutingResult.NoMethodMatch ms ∧
      ms.Nodup ∧ ∀ m, m ∈ ms ↔
        ∃ r ∈ [hello_rule], path_matches r req_post_hello.path = true ∧ m ∈ r.methods) :=
  ⟨C4_do_routing.1 Nat [hello_rule] req_get_hello hello_rule (by decide),
   C4_do_routing.2.2.1 Nat [hello_rule] ⟨[], asciiStr ("/nope"), asciiStr ("get"), []⟩
     (by decide),
   C4_do_routing.2.1 Nat [hello_rule] req_post_hello (by decide)
     ⟨hello_rule, by decide, by decide⟩⟩

theorem read_until_headers_end_reads (input : List (List Nat)) :
    ∀ buffer e, e ∈ (read_until_headers_end buffer input).2 → ∃ c, e = Event.read c := by
  induction input with
  | nil => intro buffer e he; simp [read_until_headers_end] at he
  | cons c rest ih =>
    intro buffer e he
    by_cases hc : c = []
    · simp only [read_until_headers_end, if_pos hc, List.mem_singleton] at he
      exact ⟨c, he⟩
    · simp only [read_until_headers_end, if_neg hc] at he
      rcases hm : memmem (buffer ++ c) crlfcrlf with _ | p
      · rw [hm] at he
        simp only [List.mem_cons] at he
        rcases he with he | he
        · exact ⟨c, he⟩
        · exact ih (buffer ++ c) e he
      · rw [hm] at he
        simp only [List.mem_singleton] at he
        exact ⟨c, he⟩

theorem read_until_size_reads (input : List (List Nat)) :
    ∀ buffer size e, e ∈ (read_until_size buffer size input).2 → ∃ c, e = Event.read c := by
  induction input with
  | nil =>
    intro buffer size e he
    by_cases hs : size ≤ buffer.length <;>
      simp [read_until_size, hs] at he
  | cons c rest ih =>
    intro buffer size e he
    by_cases hs : size ≤ buffer.length
    · simp [read_until_size, hs] at he
    · by_cases hc : c = []
      · simp only [read_until_size, if_neg hs, if_pos hc, List.mem_singleton] at he
        exact ⟨c, he⟩
      · simp only [read_until_size, if_neg hs, if_neg hc, List.mem_cons] at he
        rcases he with he | he
        · exact ⟨c, he⟩
        · exact ih (buffer ++ c) size e he

/-- C2: when the parsed request carries a `Content-Length` above the
configured maximum, `read_request` fails with `TooLarge` right after
the header phase: its trace is exactly the header-phase reads — no
100-continue write and no body read occur — and the connection
pipeline answers with the single 413 response (a syntactically valid
response with code 413) and ends. -/
theorem C2_too_large {α : Type} (rules : List (Rule α))
    (app : α → WebRequest → Option WebResponse) (max_size : Nat)
    (remote locala : List Nat) (input : List (List Nat))
    (buf : List Nat) (req_size : Nat) (rest : List (List Nat)) (evs : List Event)
    (req : Request) (clen_bytes : List Nat) (clen : Nat)
    (h1 : read_until_headers_end [] input = (some (buf, req_size, rest), evs))
    (h2 : http_request_parse (buf.take req_size) = Except.ok req)
    (h3 : envContains req.environ (asciiStr ("http_transfer-encoding")) = false)
    (h4 : envGet req.environ (asciiStr ("http_content-length")) = some clen_bytes)
    (h5 : parse_u64 clen_bytes = some clen)
    (h6 : max_size < clen) :
    read_request max_size input = (Except.error RError.tooLarge, evs) ∧
    (∀ e ∈ evs, ∃ c, e = Event.read c) ∧
    process_http_connection rules app max_size remote locala input =
      evs ++ (write_response none resp_413).map Event.write ∧
    check_response false
      ((write_response none resp_413).foldr (fun a b => a ++ b) []) = some 413 := by
  have hrr : read_request max_size input = (Except.error RError.tooLarge, evs) := by
    simp only [read_request, h1, h2, h3, h4, h5, Bool.false_eq_true, if_false, if_pos h6]
  refine ⟨hrr, ?_, ?_, by decide⟩
  · intro e he
    exact read_until_headers_end_reads input [] e (by rw [h1]; exact he)
  · unfold process_http_connection
    rw [hrr]

/-- C2 witness. -/
theorem C2_too_large_witness :
    read_request 1000000
        [asciiStr ("GET / HTTP/1.1\r\nContent-Length: 1000000000\r\n\r\n")] =
      (Except.error RError.tooLarge,
        [Event.read (asciiStr ("GET / HTTP/1.1\r\nContent-Length: 1000000000\r\n\r\n"))]) ∧
    (∀ e ∈ [Event.read (asciiStr ("GET / HTTP/1.1\r\nContent-Length: 1000000000\r\n\r\n"))],
      ∃ c, e = Event.read c) ∧
    process_http_connection ([] : List (Rule Nat)) (fun _ _ => none) 1000000 [] []
        [asciiStr ("GET / HTTP/1.1\r\nContent-Length: 1000000000\r\n\r\n")] =
      [Event.read (asciiStr ("GET / HTTP/1.1\r\nContent-Length: 1000000000\r\n\r\n"))] ++
        (write_response none resp_413).map Event.write ∧
    check_response false
      ((write_response none resp_413).foldr (fun a b => a ++ b) []) = some 413 :=
  C2_too_large [] (fun _ _ => none) 1000000 [] []
    [asciiStr ("GET / HTTP/1.1\r\nContent-Length: 1000000000\r\n\r\n")]
    (asciiStr ("GET / HTTP/1.1\r\nContent-Length: 1000000000\r\n\r\n"))
    (asciiStr ("GET / HTTP/1.1\r\nContent-Length: 1000000000\r\n\r\n")).length []
    [Event.read (asciiStr ("GET / HTTP/1.1\r\nContent-Length: 1000000000\r\n\r\n"))]
    c2_req (asciiStr ("1000000000")) 1000000000
    (by decide) (by decide) (by decide) (by decide) (by decide) (by decide)

/-- C9: when the parsed request has an acceptable `Content-Length` and
`needs_100_continue` holds (an `Expect` header equal to `100-continue`
case-insensitively), the trace of `read_request` is the header-phase
reads, then the single write of the literal bytes
`HTTP/1.1 100 Continue\r\n\r\n`, then the body-phase reads — the write
precedes every body read; without such an `Expect` header no write at
all appears in the trace. -/
theorem C9_100_continue (max_size : Nat) (input : List (List Nat))
    (buf : List Nat) (req_size : Nat) (rest : List (List Nat)) (evs : List Event)
    (req : Request) (clen_bytes : List Nat) (clen : Nat)
    (h1 : read_until_headers_end [] input = (some (buf, req_size, rest), evs))
    (h2 : http_request_parse (buf.take req_size) = Except.ok req)
    (h3 : envContains req.environ (asciiStr ("http_transfer-encoding")) = false)
    (h4 : envGet req.environ (asciiStr ("http_content-length")) = some clen_bytes)
    (h5 : parse_u64 clen_bytes = some clen)
    (h6 : ¬max_size < clen) :
    (needs_100_continue req = true →
      (read_request max_size input).2 =
        evs ++ [Event.write continue_bytes] ++
          (read_until_size (buf.drop req_size) clen rest).2 ∧
      (∀ e ∈ (read_until_size (buf.drop req_size) clen rest).2, ∃ c, e = Event.read c) ∧
      (∀ e ∈ evs, ∃ c, e = Event.read c)) ∧
    (needs_100_continue req = false →
      ∀ w, Event.write w ∉ (read_request max_size input).2) := by
  have hreads1 : ∀ e ∈ evs, ∃ c, e = Event.read c := by
    intro e he
    exact read_until_headers_end_reads input [] e (by rw [h1]; exact he)
  have hreads2 : ∀ e ∈ (read_until_size (buf.drop req_size) clen rest).2,
      ∃ c, e = Event.read c := fun e he => read_until_size_reads rest (buf.drop req_size) clen e he
  constructor
  · intro hE
    refine ⟨?_, hreads2, hreads1⟩
    simp only [read_request, h1, h2, h3, h4, h5, Bool.false_eq_true, if_false,
      if_neg h6, hE, if_true]
    rcases hrs : read_until_size (buf.drop req_size) clen rest with ⟨o, evs2⟩
    rcases o with _ | ⟨bb, rest2⟩ <;> simp
  · intro hE w hw
    simp only [read_request, h1, h2, h3, h4, h5, Bool.false_eq_true, if_false,
      if_neg h6, hE, if_false] at hw
    rcases hrs : read_until_size (buf.drop req_size) clen rest with ⟨o, evs2⟩
    rw [hrs] at hw
    have hw2 : Event.write w ∈ evs ++ evs2 := by
      rcases o with _ | ⟨bb, rest2⟩ <;> simpa using hw
    rcases List.mem_append.mp hw2 with h | h
    · rcases hreads1 _ h with ⟨c, hc⟩
      exact Event.noConfusion hc
    · rcases hreads2 _ (by rw [hrs]; exact h) with ⟨c, hc⟩
      exact Event.noConfusion hc

/-- C9 witness. -/
theorem C9_100_continue_witness :
    (read_request 1000000 [c9_hdr, asciiStr ("abcde")]).2 =
      [Event.read c9_hdr] ++ [Event.write continue_bytes] ++
        (read_until_size (List.drop c9_hdr.length c9_hdr) 3 [asciiStr ("abcde")]).2 ∧
    (∀ w, Event.write w ∉ (read_request 1000000 [c9b_hdr, asciiStr ("abcde")]).2) :=
  ⟨((C9_100_continue 1000000 [c9_hdr, asciiStr ("abcde")] c9_hdr c9_hdr.length
      [asciiStr ("abcde")] [Event.read c9_hdr] c9_req (asciiStr ("3")) 3
      (by decide) (by decide) (by decide) (by decide) (by decide) (by decide)).1
      (by decide)).1,
   (C9_100_continue 1000000 [c9b_hdr, asciiStr ("abcde")] c9b_hdr c9b_hdr.length
      [asciiStr ("abcde")] [Event.read c9b_hdr] c9b_req (asciiStr ("3")) 3
      (by decide) (by decide) (by decide) (by decide) (by decide) (by decide)).2
      (by decide)⟩

theorem response_protocol_cases (req2 : WebRequest) :
    response_protocol (some req2) = asciiStr ("HTTP/1.0") ∨
      response_protocol (some req2) = asciiStr ("HTTP/1.1") := by
  unfold response_protocol
  by_cases hp : envGet req2.environ (asciiStr ("protocol")) = some (asciiStr ("http/1.0")) <;>
    simp [hp]

theorem check_response_resp_500 (req2 : WebRequest) :
    check_response (req2.method == asciiStr ("head"))
      ((write_response (some req2) resp_500).foldr (fun a b => a ++ b) []) = some 500 := by
  rcases response_protocol_cases req2 with hP | hP <;>
    by_cases hm : req2.method = asciiStr ("head")
  · have hsend : write_response (some req2) resp_500 =
        [response_head_bytes (some req2) resp_500] := by
      simp [write_response, hm]
    have hflag : (req2.method == asciiStr ("head")) = true := by simp [hm]
    rw [hsend, hflag]
    simp only [List.foldr]
    unfold response_head_bytes
    rw [hP]
    decide
  · have hsend : write_response (some req2) resp_500 =
        [response_head_bytes (some req2) resp_500, resp_500.body] := by
      simp [write_response, bne_iff_ne, hm]
    have hflag : (req2.method == asciiStr ("head")) = false := by simp [hm]
    rw [hsend, hflag]
    simp only [List.foldr]
    unfold response_head_bytes
    rw [hP]
    decide
  · have hsend : write_response (some req2) resp_500 =
        [response_head_bytes (some req2) resp_500] := by
      simp [write_response, hm]
    have hflag : (req2.method == asciiStr ("head")) = true := by simp [hm]
    rw [hsend, hflag]
    simp only [List.foldr]
    unfold response_head_bytes
    rw [hP]
    decide
  · have hsend : write_response (some req2) resp_500 =
        [response_head_bytes (some req2) resp_500, resp_500.body] := by
      simp [write_response, bne_iff_ne, hm]
    have hflag : (req2.method == asciiStr ("head")) = false := by simp [hm]
    rw [hsend, hflag]
    simp only [List.foldr]
    unfold response_head_bytes
    rw [hP]
    decide

/-- C1: on a connection whose request was read successfully and routed
to a handler, an abnormal handler termination (modelled as the handler
returning `none`) leaves the sentinel armed, and the connection trace
ends with the writes of the 500 response — a complete, syntactically
valid HTTP response with status code 500; a normal handler return
disarms the sentinel and the handler's own response is written
instead. -/
theorem C1_sentinel_500 {α : Type} (rules : List (Rule α))
    (app : α → WebRequest → Option WebResponse) (max_size : Nat)
    (remote locala : List Nat) (input : List (List Nat))
    (req : WebRequest) (evs : List Event) (pf : α)
    (h1 : read_request max_size input = (Except.ok req, evs))
    (h2 : do_routing rules (add_socket_info req remote locala) =
      RoutingResult.FoundRule pf) :
    (app pf (add_socket_info req remote locala) = none →
      process_http_connection rules app max_size remote locala input =
        evs ++ (write_response (some (add_socket_info req remote locala)) resp_500).map
          Event.write ∧
      check_response ((add_socket_info req remote locala).method == asciiStr ("head"))
        ((write_response (some (add_socket_info req remote locala)) resp_500).foldr
          (fun a b => a ++ b) []) = some 500) ∧
    (∀ resp2, app pf (add_socket_info req remote locala) = some resp2 →
      process_http_connection rules app max_size remote locala input =
        evs ++ (write_response (some (add_socket_info req remote locala)) resp2).map
          Event.write) := by
  constructor
  · intro happ
    refine ⟨?_, check_response_resp_500 _⟩
    simp only [process_http_connection, h1, h2, happ]
  · intro resp2 happ
    simp only [process_http_connection, h1, h2, happ]

/-- C1 witness. -/
theorem C1_sentinel_500_witness :
    process_http_connection [panic_rule] (fun _ _ => none) 1000000 [] [] [c1_hdr] =
      [Event.read c1_hdr] ++
        (write_response (some (add_socket_info c1_req [] [])) resp_500).map Event.write ∧
    check_response ((add_socket_info c1_req [] []).method == asciiStr ("head"))
      ((write_response (some (add_socket_info c1_req [] [])) resp_500).foldr
        (fun a b => a ++ b) []) = some 500 :=
  (C1_sentinel_500 [panic_rule] (fun _ _ => none) 1000000 [] [] [c1_hdr] c1_req
    [Event.read c1_hdr] 0 (by decide) (by decide)).1 rfl
